import Mathlib

/-!
# Verification of the coio coroutine-runtime specification

A shallow embedding of the coio runtime (crate root `src/lib.rs` together
with the components its specification describes: Options, Builder, the
Promise/JoinHandle one-shot cell, panic containment at the coroutine
boundary, spawn-time stack validation, the scheduler facade, and abstract
machines for the wake registry, the timer, the pool lifecycle and the
work-stealing balancer).

Only `src/lib.rs` of the repository is available; the modules it declares
(`scheduler`, `options`, `promise`, `runtime`, `coroutine`) are not, so
their behaviour is modelled from the specification.  Every such definition
carries a doc comment starting with `Modelled from the spec:`.
-/

namespace Coio

/-- Modelled from the spec: `options.rs` is missing.  Options carry a
`stack_size` (byte count, validated against a minimum) and an optional
`name` used for diagnostics and panic messages. -/
structure Options where
  stack_size : Nat
  name : Option String
deriving DecidableEq, Repr

/-- Modelled from the spec: the default stack size is implementation
defined; it is only required to be at least the implementation minimum. -/
def DEFAULT_STACK_SIZE : Nat := 128 * 1024

/-- Modelled from the spec: `Options::new()` produces the base
configuration (default stack size, no name). -/
def Options.new : Options :=
  { stack_size := DEFAULT_STACK_SIZE, name := none }

/-- From `src/lib.rs`: coroutine configuration, wrapping an `Options`. -/
structure Builder where
  opts : Options
deriving DecidableEq, Repr

/-- From `src/lib.rs`: `Builder::new()` generates the base configuration. -/
def Builder.new : Builder :=
  { opts := Options.new }

/-- From `src/lib.rs`: `Builder::stack_size` sets the stack size of the
options and returns the builder. -/
def Builder.stack_size (b : Builder) (s : Nat) : Builder :=
  { b with opts := { b.opts with stack_size := s } }

/-- From `src/lib.rs`: `Builder::name` sets the coroutine name of the
options and returns the builder. -/
def Builder.name (b : Builder) (n : Option String) : Builder :=
  { b with opts := { b.opts with name := n } }

/-- Modelled from the spec: a panic payload (the value carried by a Rust
panic); its structure is irrelevant, a string stands in for it. -/
abbrev PanicPayload := String

/-- Modelled from the spec: the outcome stored in a coroutine's terminal
state — either the closure's return value or the captured panic payload. -/
inductive Outcome (T : Type) where
  | value : T → Outcome T
  | panicked : PanicPayload → Outcome T
deriving DecidableEq, Repr

/-- Modelled from the spec: the observable behaviour of a Rust closure
`FnOnce() -> T` — it either returns a value or panics with a payload. -/
inductive ClosureBehavior (T : Type) where
  | returns : T → ClosureBehavior T
  | panics : PanicPayload → ClosureBehavior T
deriving DecidableEq, Repr

/-- Modelled from the spec: `coroutine.rs` is missing.  The entry
trampoline wraps the user closure in panic containment: an uncaught panic
is captured and becomes `Panicked(payload)`; a normal return becomes
`Value(v)`.  The trampoline is total: it always hands an `Outcome` back to
the processor, never an unwinding panic. -/
def trampoline {T : Type} : ClosureBehavior T → Outcome T
  | .returns v => .value v
  | .panics p => .panicked p

/-- Modelled from the spec: `JoinError` variants — `Panicked{name, payload}`. -/
inductive JoinError where
  | panicked : Option String → PanicPayload → JoinError
deriving DecidableEq, Repr

/-- Modelled from the spec: `promise.rs` is missing.  A Promise is a
single-writer single-slot cell holding at most one outcome. -/
structure Promise (T : Type) where
  slot : Option (Outcome T)
deriving DecidableEq, Repr

/-- Modelled from the spec: a fresh, unfilled promise. -/
def Promise.new (T : Type) : Promise T :=
  { slot := none }

/-- Modelled from the spec: `fulfill(outcome)` writes the one-shot cell;
it succeeds only when the slot is still empty (the producer writes exactly
once), and fails (`none`) on a second write. -/
def Promise.fulfill {T : Type} (p : Promise T) (o : Outcome T) : Option (Promise T) :=
  match p.slot with
  | none => some { slot := some o }
  | some _ => none

/-- Modelled from the spec: reading the cell.  An unfilled cell blocks the
consumer (`none` here); a filled cell yields the cached outcome and leaves
the cell filled, so a later read sees the same outcome. -/
def Promise.take {T : Type} (p : Promise T) : Option (Outcome T × Promise T) :=
  match p.slot with
  | none => none
  | some o => some (o, p)

/-- Modelled from the spec: a finished coroutine's outcome is surfaced to
the JoinHandle consumer — a value becomes `Ok`, a contained panic becomes
`Err(JoinError::Panicked{name, payload})`. -/
def joinOutcome {T : Type} (name : Option String) : Outcome T → Except JoinError T
  | .value v => .ok v
  | .panicked p => .error (.panicked name p)

/-- Modelled from the spec: the terminal state of a coroutine as the
processor loop observes it after resuming it to completion. -/
inductive FinState (T : Type) where
  | finished : Outcome T → FinState T
deriving DecidableEq, Repr

/-- Modelled from the spec: running a spawned coroutine to completion.
The trampoline runs the closure under panic containment, the coroutine
reaches `Finished(outcome)`, and the finishing trampoline fulfills the
promise with that same outcome. -/
def spawnRun {T : Type} (f : ClosureBehavior T) : FinState T × Promise T :=
  match Promise.fulfill (Promise.new T) (trampoline f) with
  | some p => (.finished (trampoline f), p)
  | none => (.finished (trampoline f), { slot := some (trampoline f) })

/-- Modelled from the spec: `JoinHandle::join()` on a promise — blocks
until the slot is filled (`none` when still empty), then converts the
outcome via `joinOutcome`. -/
def JoinHandle.joinOn {T : Type} (name : Option String) (p : Promise T) :
    Option (Except JoinError T) :=
  match Promise.take p with
  | none => none
  | some (o, _) => some (joinOutcome name o)

/-- Modelled from the spec: spawn-time stack allocation failures —
either the requested stack size is below the implementation minimum, or
the stack region cannot be reserved. -/
inductive AllocationError where
  | belowMinimum : AllocationError
  | reserveFailed : AllocationError
deriving DecidableEq, Repr

/-- Modelled from the spec: the implementation minimum stack size that
`stack_size` is validated against. -/
def MIN_STACK_SIZE : Nat := 2048

/-- Modelled from the spec: the consumer-facing handle wrapping the
promise of one spawned coroutine, identified by the coroutine id. -/
structure JoinHandle (T : Type) where
  co : Nat
deriving DecidableEq, Repr

/-- Modelled from the spec: the scheduler state relevant to spawning — a
counter of coroutine ids and the injector queue holding freshly spawned
coroutines before a Processor claims them. -/
structure SchedState where
  nextId : Nat
  injector : List Nat
deriving DecidableEq, Repr

/-- Modelled from the spec: `scheduler.rs` is missing.
`Scheduler::spawn_opts` validates the Options, constructs a
Coroutine + Promise, pushes the coroutine to the injector and returns a
JoinHandle.  Validation and stack reservation happen synchronously at the
call site: on failure the error is returned at once, no coroutine is
created and the scheduler state is untouched.  `reserveOk` abstracts
whether a stack region of a given size can be reserved. -/
def Scheduler.spawn_opts {T : Type} (reserveOk : Nat → Bool) (st : SchedState)
    (_f : ClosureBehavior T) (opts : Options) :
    Except AllocationError (JoinHandle T) × SchedState :=
  if opts.stack_size < MIN_STACK_SIZE then
    (.error .belowMinimum, st)
  else if reserveOk opts.stack_size = false then
    (.error .reserveFailed, st)
  else
    (.ok { co := st.nextId },
     { nextId := st.nextId + 1, injector := st.injector ++ [st.nextId] })

/-- Modelled from the spec: `Scheduler::spawn` spawns with the default
options. -/
def Scheduler.spawn {T : Type} (reserveOk : Nat → Bool) (st : SchedState)
    (f : ClosureBehavior T) :
    Except AllocationError (JoinHandle T) × SchedState :=
  Scheduler.spawn_opts reserveOk st f Options.new

/-- Modelled from the spec: misuse errors — calling `sched`/`sleep_ms`
outside a running coroutine fails immediately with a clear error. -/
inductive ContextError where
  | notInCoroutine : ContextError
deriving DecidableEq, Repr

/-- Modelled from the spec: the per-OS-thread execution context that
`Processor::current()` exposes — the currently running coroutine slot
(at most one, `none` on a plain OS thread or before `run`/`start`), the
ready queue and the timer registrations, with the current tick. -/
structure ThreadCtx where
  current : Option Nat
  ready : List Nat
  timers : List (Nat × Nat)
  now : Nat
deriving DecidableEq, Repr

/-- Modelled from the spec: `Scheduler::sched()` — when called from inside
a running coroutine it pushes that coroutine to the back of the ready set
and hands control back to the processor loop; invoked outside a running
coroutine it fails immediately with a clear error. -/
def Scheduler.sched (t : ThreadCtx) : Except ContextError ThreadCtx :=
  match t.current with
  | none => .error .notInCoroutine
  | some c => .ok { t with current := none, ready := t.ready ++ [c] }

/-- Modelled from the spec: `runtime.rs` is missing.
`Processor::current().sleep_ms(ms)` — when called from inside a running
coroutine it registers the coroutine under a Timer wake reason with
deadline `now + ms` and suspends it; invoked outside a running coroutine
it fails immediately with a clear error. -/
def Processor.sleep_ms (t : ThreadCtx) (ms : Nat) : Except ContextError ThreadCtx :=
  match t.current with
  | none => .error .notInCoroutine
  | some c => .ok { t with current := none, timers := (c, t.now + ms) :: t.timers }

/-- Modelled from the spec: one Processor as the pool lifecycle sees it —
its Ready work and its Blocked work. -/
structure PoolProc where
  ready : List Nat
  blocked : List Nat
deriving DecidableEq, Repr

/-- Modelled from the spec: the pool — the fixed set of Processors created
at `run`/`start` plus the shared injector queue. -/
structure Pool where
  procs : List PoolProc
  injector : List Nat
deriving DecidableEq, Repr

/-- Modelled from the spec: quiescence — no Processor has Ready or Blocked
work and the injector queue is empty. -/
def Pool.quiescent (p : Pool) : Bool :=
  p.procs.all (fun pr => pr.ready.isEmpty && pr.blocked.isEmpty) && p.injector.isEmpty

/-- Modelled from the spec: `Scheduler::start(threads)` creates `threads`
Processors with empty queues over the pending injector queue and returns
at once (it is a pure constructor, no waiting loop). -/
def Scheduler.start (threads : Nat) (pending : List Nat) : Pool :=
  { procs := List.replicate threads { ready := [], blocked := [] }, injector := pending }

/-- Modelled from the spec: one scheduling step of the running pool — a
Processor claims an injected coroutine, or runs a Ready coroutine to
completion, or a Blocked coroutine's event fires making it Ready. -/
def Pool.step (p : Pool) : Pool :=
  match p.injector with
  | c :: rest =>
    match p.procs with
    | pr :: prs => { procs := { pr with ready := pr.ready ++ [c] } :: prs, injector := rest }
    | [] => { p with injector := rest }
  | [] =>
    match p.procs.findIdx? (fun pr => !pr.ready.isEmpty) with
    | some i =>
      { p with procs := p.procs.modify (fun pr => { pr with ready := pr.ready.tail }) i }
    | none =>
      match p.procs.findIdx? (fun pr => !pr.blocked.isEmpty) with
      | some i =>
        { p with
          procs := p.procs.modify
            (fun pr => { ready := pr.ready ++ pr.blocked.take 1, blocked := pr.blocked.tail }) i }
      | none => p

/-- Modelled from the spec: `Scheduler::join()` blocks the calling thread
until the started pool reaches quiescence: it repeatedly steps the pool
and returns only when `quiescent` holds (`fuel` bounds the wait; `none`
models still waiting). -/
def Scheduler.joinPool : Nat → Pool → Option Pool
  | 0, p => if p.quiescent then some p else none
  | fuel + 1, p => if p.quiescent then some p else Scheduler.joinPool fuel p.step

/-- Modelled from the spec: `Scheduler::run(threads)` starts the pool and
blocks until quiescence — exactly `start` followed by `join`. -/
def Scheduler.run (fuel : Nat) (threads : Nat) (pending : List Nat) : Option Pool :=
  Scheduler.joinPool fuel (Scheduler.start threads pending)

/-- From `src/lib.rs`: `pub fn spawn(f)` delegates to `Scheduler::spawn(f)`. -/
def coio.spawn {T : Type} (reserveOk : Nat → Bool) (st : SchedState)
    (f : ClosureBehavior T) :
    Except AllocationError (JoinHandle T) × SchedState :=
  Scheduler.spawn reserveOk st f

/-- From `src/lib.rs`: `pub fn spawn_opts(f, opts)` delegates to
`Scheduler::spawn_opts(f, opts)`. -/
def coio.spawn_opts {T : Type} (reserveOk : Nat → Bool) (st : SchedState)
    (f : ClosureBehavior T) (opts : Options) :
    Except AllocationError (JoinHandle T) × SchedState :=
  Scheduler.spawn_opts reserveOk st f opts

/-- From `src/lib.rs`: `pub fn sched()` delegates to `Scheduler::sched()`. -/
def coio.sched (t : ThreadCtx) : Except ContextError ThreadCtx :=
  Scheduler.sched t

/-- From `src/lib.rs`: `pub fn run(threads)` delegates to
`Scheduler::run(threads)`. -/
def coio.run (fuel : Nat) (threads : Nat) (pending : List Nat) : Option Pool :=
  Scheduler.run fuel threads pending

/-- From `src/lib.rs`: `pub fn start(threads)` delegates to
`Scheduler::start(threads)`. -/
def coio.start (threads : Nat) (pending : List Nat) : Pool :=
  Scheduler.start threads pending

/-- From `src/lib.rs`: `pub fn join()` delegates to `Scheduler::join()`. -/
def coio.join (fuel : Nat) (p : Pool) : Option Pool :=
  Scheduler.joinPool fuel p

/-- From `src/lib.rs`: `pub fn sleep_ms(ms)` calls
`runtime::Processor::current().sleep_ms(ms)`. -/
def coio.sleep_ms (t : ThreadCtx) (ms : Nat) : Except ContextError ThreadCtx :=
  Processor.sleep_ms t ms

/-- From `src/lib.rs`: `Builder::spawn(f)` calls
`Scheduler::spawn_opts(f, self.opts)`. -/
def Builder.spawn {T : Type} (b : Builder) (reserveOk : Nat → Bool) (st : SchedState)
    (f : ClosureBehavior T) :
    Except AllocationError (JoinHandle T) × SchedState :=
  Scheduler.spawn_opts reserveOk st f b.opts

/-- Modelled from the spec: the tag on a Blocked coroutine naming its one
wake source — `Timer(deadline)`, `IoReadiness(source, interest)` or
`SyncWait(resource id)`. -/
inductive WakeReason where
  | timer : Nat → WakeReason
  | ioReadiness : Nat → Nat → WakeReason
  | syncWait : Nat → WakeReason
deriving DecidableEq, Repr

/-- Modelled from the spec: the coroutine state machine —
Ready, Running, Blocked(reason), Finished. -/
inductive CoState where
  | ready : CoState
  | running : CoState
  | blocked : WakeReason → CoState
  | finished : CoState
deriving DecidableEq, Repr

/-- Pointwise update of a coroutine-state map. -/
def updCo (f : Nat → Option CoState) (c : Nat) (v : Option CoState) : Nat → Option CoState :=
  fun x => if x = c then v else f x

/-- Modelled from the spec: the runtime state the wake-registry invariant
speaks about — the state of every coroutine (by id; `none` = never
spawned) and the union of the wake registries (timer heap, reactor table,
sync wait-lists) as a list of (coroutine, wake reason) registrations. -/
structure RtState where
  co : Nat → Option CoState
  regs : List (Nat × WakeReason)

/-- The initial runtime state: no coroutines, empty registries. -/
def RtState.init : RtState :=
  { co := fun _ => none, regs := [] }

/-- The registrations of one coroutine in the wake registries. -/
def RtState.regsOf (m : RtState) (c : Nat) : List (Nat × WakeReason) :=
  m.regs.filter (fun e => e.1 == c)

/-- Modelled from the spec: the state the fire transition produces — the
woken coroutine becomes Ready and is deregistered from the registries. -/
def RtState.fireResult (m : RtState) (c : Nat) : RtState :=
  { co := updCo m.co c (some .ready), regs := m.regs.filter (fun e => !(e.1 == c)) }

/-- Modelled from the spec: the transitions of the coroutine state machine
as the Processor loop drives them.  Blocking registers the coroutine under
its one wake reason; the firing of that event deregisters it and makes it
Ready. -/
inductive RtStep : RtState → RtState → Prop where
  | spawnCo (m : RtState) (c : Nat) :
      m.co c = none →
      RtStep m { co := updCo m.co c (some .ready), regs := m.regs }
  | resume (m : RtState) (c : Nat) :
      m.co c = some .ready →
      RtStep m { co := updCo m.co c (some .running), regs := m.regs }
  | yieldBack (m : RtState) (c : Nat) :
      m.co c = some .running →
      RtStep m { co := updCo m.co c (some .ready), regs := m.regs }
  | block (m : RtState) (c : Nat) (r : WakeReason) :
      m.co c = some .running →
      RtStep m { co := updCo m.co c (some (.blocked r)), regs := (c, r) :: m.regs }
  | fire (m : RtState) (c : Nat) (r : WakeReason) :
      m.co c = some (.blocked r) →
      RtStep m (RtState.fireResult m c)
  | finish (m : RtState) (c : Nat) :
      m.co c = some .running →
      RtStep m { co := updCo m.co c (some .finished), regs := m.regs }

/-- A runtime state reachable from the initial state. -/
def RtReachable (m : RtState) : Prop :=
  Relation.ReflTransGen RtStep RtState.init m

/-- Modelled from the spec: the wake-registry invariant — a Blocked
coroutine is registered under exactly one wake reason (its own), and a
coroutine that is not Blocked has no registration at all. -/
def WakeInv (m : RtState) : Prop :=
  ∀ c : Nat,
    (∀ r : WakeReason, m.co c = some (.blocked r) → m.regsOf c = [(c, r)]) ∧
    ((∀ r : WakeReason, m.co c ≠ some (.blocked r)) → m.regsOf c = [])

/-- Modelled from the spec: the discrete-time view of `sleep_ms` — one
pending sleep: which coroutine, when it called `sleep_ms`, and the
requested delay in milliseconds. -/
structure SleepEntry where
  co : Nat
  callTime : Nat
  delay : Nat
deriving DecidableEq, Repr

/-- A recorded wake: which coroutine resumed, when it had called
`sleep_ms`, the requested delay, and the time at which it was resumed. -/
structure WakeEvent where
  co : Nat
  callTime : Nat
  delay : Nat
  wakeTime : Nat
deriving DecidableEq, Repr

/-- Modelled from the spec: the timer machine — the clock (milliseconds),
the pending sleepers (the timer heap) and the log of resumptions. -/
structure TimerState where
  now : Nat
  sleeping : List SleepEntry
  resumed : List WakeEvent
deriving DecidableEq, Repr

/-- The initial timer state: clock at zero, nothing pending. -/
def TimerState.init : TimerState :=
  { now := 0, sleeping := [], resumed := [] }

/-- Modelled from the spec: timer transitions — time advances, a running
coroutine calls `sleep_ms(ms)` registering deadline `callTime + ms`, and a
timer whose deadline has elapsed fires, resuming its coroutine at the
current time.  A timer can fire no earlier than its deadline; there is no
upper bound on how late it fires. -/
inductive TimerStep : TimerState → TimerState → Prop where
  | tick (m : TimerState) :
      TimerStep m { m with now := m.now + 1 }
  | sleepCall (m : TimerState) (c ms : Nat) :
      TimerStep m { m with sleeping := { co := c, callTime := m.now, delay := ms } :: m.sleeping }
  | fire (m : TimerState) (e : SleepEntry) :
      e ∈ m.sleeping →
      e.callTime + e.delay ≤ m.now →
      TimerStep m { m with
        sleeping := m.sleeping.erase e,
        resumed := { co := e.co, callTime := e.callTime, delay := e.delay,
                     wakeTime := m.now } :: m.resumed }

/-- A timer state reachable from the initial state. -/
def TimerReachable (m : TimerState) : Prop :=
  Relation.ReflTransGen TimerStep TimerState.init m

/-- Modelled from the spec: the work-stealing balancer state — one deque
per Processor (owner pushes and pops at the back, thieves steal at the
front), the global injector queue, the coroutines currently being run, and
the multiset of completed executions. -/
structure Balancer where
  deques : List (List Nat)
  injector : List Nat
  running : List Nat
  executed : List Nat
deriving DecidableEq, Repr

/-- All coroutines present in the balancer, as a multiset: in some deque,
in the injector, running on some Processor, or already executed. -/
def Balancer.contents (b : Balancer) : Multiset Nat :=
  (↑b.deques.flatten + ↑b.injector + ↑b.running + ↑b.executed : Multiset Nat)

/-- Modelled from the spec: the balancer operations, interleaved in any
order by the Processors.  A successful steal moves exactly one coroutine
from the front of the victim's deque to the thief's deque; a failed steal
(empty victim) changes nothing and does not block the caller; the owner
pops from the back of its own deque to run a coroutine; a Processor claims
one coroutine from the injector; a running coroutine finishes and is
marked executed. -/
inductive BStep : Balancer → Balancer → Prop where
  | steal (b : Balancer) (t v c : Nat) (rest dt : List Nat) :
      b.deques.get? v = some (c :: rest) →
      (b.deques.set v rest).get? t = some dt →
      t ≠ v →
      BStep b { b with deques := (b.deques.set v rest).set t (dt ++ [c]) }
  | stealEmpty (b : Balancer) (v : Nat) :
      b.deques.get? v = some [] →
      BStep b b
  | popLocal (b : Balancer) (p c : Nat) (xs : List Nat) :
      b.deques.get? p = some (xs ++ [c]) →
      BStep b { b with deques := b.deques.set p xs, running := c :: b.running }
  | takeInjector (b : Balancer) (p c : Nat) (rest dp : List Nat) :
      b.injector = c :: rest →
      b.deques.get? p = some dp →
      BStep b { b with injector := rest, deques := b.deques.set p (dp ++ [c]) }
  | finishRun (b : Balancer) (c : Nat) :
      c ∈ b.running →
      BStep b { b with running := b.running.erase c, executed := c :: b.executed }

/-- A balancer state reachable from a given start state under any
interleaving of the balancer operations. -/
def BReachable (b₀ b : Balancer) : Prop :=
  Relation.ReflTransGen BStep b₀ b

/-- C1: if the closure of a spawned coroutine panics, the panic is
contained at the coroutine boundary: the coroutine reaches
`Finished(Panicked(payload))` — the Processor loop receives a terminal
state, never an unwinding panic — and `JoinHandle::join()` returns
`Err(JoinError::Panicked{name, payload})`. -/
theorem coio_panic_contained (T : Type) (name : Option String)
    (f : ClosureBehavior T) (payload : PanicPayload) (h : f = .panics payload) :
    (spawnRun f).1 = FinState.finished (.panicked payload) ∧
    JoinHandle.joinOn name (spawnRun f).2 = some (.error (.panicked name payload)) := by
  subst h
  exact ⟨rfl, rfl⟩

/-- Witness for C1 at a concrete panicking closure. -/
theorem coio_panic_contained_witness :
    (ClosureBehavior.panics "boom" : ClosureBehavior Nat) = .panics "boom" ∧
    ((spawnRun (ClosureBehavior.panics "boom" : ClosureBehavior Nat)).1 =
        FinState.finished (.panicked "boom") ∧
      JoinHandle.joinOn (some "worker") (spawnRun (ClosureBehavior.panics "boom" :
        ClosureBehavior Nat)).2 = some (.error (.panicked (some "worker") "boom"))) :=
  ⟨rfl, coio_panic_contained Nat (some "worker") (.panics "boom") "boom" rfl⟩

/-- C2: the Promise behind a JoinHandle is a one-shot cell — it is
written exactly once (a second `fulfill` fails), and after a first
`join()` returned an outcome, a second `join()` returns the same outcome:
reading a filled cell is idempotent and yields the cached value. -/
theorem joinhandle_one_shot_idempotent (T : Type) (o oSecond : Outcome T) (p1 : Promise T)
    (h : Promise.fulfill (Promise.new T) o = some p1) :
    Promise.fulfill p1 oSecond = none ∧
    ∃ p2, Promise.take p1 = some (o, p2) ∧ Promise.take p2 = some (o, p2) := by
  have hp1 : p1 = { slot := some o } := by
    simpa [Promise.fulfill, Promise.new, eq_comm] using h
  subst hp1
  exact ⟨rfl, { slot := some o }, rfl, rfl⟩

/-- Witness for C2 at a concrete outcome. -/
theorem joinhandle_one_shot_idempotent_witness :
    Promise.fulfill (Promise.new Nat) (.value 7) = some { slot := some (.value 7) } ∧
    (Promise.fulfill ({ slot := some (.value 7) } : Promise Nat) (.value 9) = none ∧
     ∃ p2, Promise.take ({ slot := some (.value 7) } : Promise Nat) = some (.value 7, p2) ∧
       Promise.take p2 = some (.value 7, p2)) :=
  ⟨rfl, joinhandle_one_shot_idempotent Nat (.value 7) (.value 9) { slot := some (.value 7) } rfl⟩

/-- C3: spawning with a stack size below the implementation minimum, or
with a stack that cannot be reserved, fails synchronously at the call
site with an allocation error; on any failure no coroutine is created and
the scheduler state is untouched (nothing is deferred into the runtime).
The Builder spawn path fails identically. -/
theorem spawn_opts_validates (T : Type) (reserveOk : Nat → Bool) (st : SchedState)
    (f : ClosureBehavior T) (opts : Options) :
    (opts.stack_size < MIN_STACK_SIZE →
      Scheduler.spawn_opts reserveOk st f opts = (.error .belowMinimum, st) ∧
      Builder.spawn { opts := opts } reserveOk st f = (.error .belowMinimum, st)) ∧
    (MIN_STACK_SIZE ≤ opts.stack_size → reserveOk opts.stack_size = false →
      Scheduler.spawn_opts reserveOk st f opts = (.error .reserveFailed, st)) ∧
    (∀ e st', Scheduler.spawn_opts reserveOk st f opts = (.error e, st') → st' = st) := by
  refine ⟨fun hlt => ?_, fun hge hres => ?_, fun e st' h => ?_⟩
  · constructor <;> simp [Scheduler.spawn_opts, Builder.spawn, hlt]
  · simp [Scheduler.spawn_opts, Nat.not_lt.mpr hge, hres]
  · by_cases hlt : opts.stack_size < MIN_STACK_SIZE
    · simpa [Scheduler.spawn_opts, hlt] using (congrArg Prod.snd h).symm
    · by_cases hres : reserveOk opts.stack_size = false
      · simpa [Scheduler.spawn_opts, hlt, hres] using (congrArg Prod.snd h).symm
      · simp [Scheduler.spawn_opts, hlt, hres] at h

/-- Witness for C3 at a too-small stack size. -/
theorem spawn_opts_validates_witness :
    ({ stack_size := 1, name := none } : Options).stack_size < MIN_STACK_SIZE ∧
    Scheduler.spawn_opts (fun _ => true) { nextId := 0, injector := [] }
      (ClosureBehavior.returns (0 : Nat)) { stack_size := 1, name := none } =
      (.error .belowMinimum, { nextId := 0, injector := [] }) :=
  ⟨by decide,
   ((spawn_opts_validates Nat (fun _ => true) { nextId := 0, injector := [] }
      (ClosureBehavior.returns 0) { stack_size := 1, name := none }).1 (by decide)).1⟩

/-- C4: calling `sched()` or `sleep_ms(ms)` from outside a running
coroutine (no current coroutine in the thread context) fails immediately
with a clear error. -/
theorem sched_sleep_fail_outside (t : ThreadCtx) (ms : Nat) (h : t.current = none) :
    coio.sched t = .error .notInCoroutine ∧
    coio.sleep_ms t ms = .error .notInCoroutine := by
  unfold coio.sched Scheduler.sched coio.sleep_ms Processor.sleep_ms
  rw [h]
  exact ⟨rfl, rfl⟩

/-- Witness for C4 on a plain OS thread (no current coroutine). -/
theorem sched_sleep_fail_outside_witness :
    ({ current := none, ready := [], timers := [], now := 0 } : ThreadCtx).current = none ∧
    (coio.sched { current := none, ready := [], timers := [], now := 0 } =
        .error .notInCoroutine ∧
     coio.sleep_ms { current := none, ready := [], timers := [], now := 0 } 5 =
        .error .notInCoroutine) :=
  ⟨rfl, sched_sleep_fail_outside { current := none, ready := [], timers := [], now := 0 } 5 rfl⟩

/-- C9: Builder's configuration methods are frame-preserving —
`stack_size` sets only `opts.stack_size` and leaves `opts.name`
unchanged; `name` sets only `opts.name` and leaves `opts.stack_size`
unchanged. -/
theorem builder_config_frame (b : Builder) (s : Nat) (n : Option String) :
    (Builder.stack_size b s).opts.stack_size = s ∧
    (Builder.stack_size b s).opts.name = b.opts.name ∧
    (Builder.name b n).opts.name = n ∧
    (Builder.name b n).opts.stack_size = b.opts.stack_size :=
  ⟨rfl, rfl, rfl, rfl⟩

/-- C10: the Builder path equals the direct spawn path —
`Builder::new().spawn(f)` performs exactly
`Scheduler::spawn_opts(f, Options::new())`, a Builder holding options `o`
spawns via `Scheduler::spawn_opts(f, o)`, and every crate-root free
function (`spawn`, `spawn_opts`, `sched`, `run`, `start`, `join`,
`sleep_ms`) is a pure delegation to the corresponding Scheduler/Processor
method with unchanged arguments. -/
theorem facade_pure_delegation (T : Type) (reserveOk : Nat → Bool) (st : SchedState)
    (f : ClosureBehavior T) (b : Builder) (o : Options) (fuel threads ms : Nat)
    (pending : List Nat) (t : ThreadCtx) (p : Pool) (hb : b.opts = o) :
    Builder.spawn Builder.new reserveOk st f = Scheduler.spawn_opts reserveOk st f Options.new ∧
    Builder.spawn b reserveOk st f = Scheduler.spawn_opts reserveOk st f o ∧
    coio.spawn reserveOk st f = Scheduler.spawn reserveOk st f ∧
    Scheduler.spawn reserveOk st f = Scheduler.spawn_opts reserveOk st f Options.new ∧
    coio.spawn_opts reserveOk st f o = Scheduler.spawn_opts reserveOk st f o ∧
    coio.sched t = Scheduler.sched t ∧
    coio.run fuel threads pending = Scheduler.run fuel threads pending ∧
    coio.start threads pending = Scheduler.start threads pending ∧
    coio.join fuel p = Scheduler.joinPool fuel p ∧
    coio.sleep_ms t ms = Processor.sleep_ms t ms := by
  subst hb
  exact ⟨rfl, rfl, rfl, rfl, rfl, rfl, rfl, rfl, rfl, rfl⟩

/-- Witness for C10 at concrete arguments. -/
theorem facade_pure_delegation_witness :
    (Builder.new).opts = Options.new ∧
    (Builder.spawn Builder.new (fun _ => true) { nextId := 0, injector := [] }
        (ClosureBehavior.returns (0 : Nat)) =
      Scheduler.spawn_opts (fun _ => true) { nextId := 0, injector := [] }
        (ClosureBehavior.returns 0) Options.new ∧
     Builder.spawn Builder.new (fun _ => true) { nextId := 0, injector := [] }
        (ClosureBehavior.returns (0 : Nat)) =
      Scheduler.spawn_opts (fun _ => true) { nextId := 0, injector := [] }
        (ClosureBehavior.returns 0) Options.new ∧
     coio.spawn (fun _ => true) { nextId := 0, injector := [] }
        (ClosureBehavior.returns (0 : Nat)) =
      Scheduler.spawn (fun _ => true) { nextId := 0, injector := [] }
        (ClosureBehavior.returns 0) ∧
     Scheduler.spawn (fun _ => true) { nextId := 0, injector := [] }
        (ClosureBehavior.returns (0 : Nat)) =
      Scheduler.spawn_opts (fun _ => true) { nextId := 0, injector := [] }
        (ClosureBehavior.returns 0) Options.new ∧
     coio.spawn_opts (fun _ => true) { nextId := 0, injector := [] }
        (ClosureBehavior.returns (0 : Nat)) Options.new =
      Scheduler.spawn_opts (fun _ => true) { nextId := 0, injector := [] }
        (ClosureBehavior.returns 0) Options.new ∧
     coio.sched { current := none, ready := [], timers := [], now := 0 } =
      Scheduler.sched { current := none, ready := [], timers := [], now := 0 } ∧
     coio.run 3 1 [7] = Scheduler.run 3 1 [7] ∧
     coio.start 1 [7] = Scheduler.start 1 [7] ∧
     coio.join 3 { procs := [], injector := [] } =
      Scheduler.joinPool 3 { procs := [], injector := [] } ∧
     coio.sleep_ms { current := none, ready := [], timers := [], now := 0 } 5 =
      Processor.sleep_ms { current := none, ready := [], timers := [], now := 0 } 5) :=
  ⟨rfl, facade_pure_delegation Nat (fun _ => true) { nextId := 0, injector := [] }
    (ClosureBehavior.returns 0) Builder.new Options.new 3 1 5 [7]
    { current := none, ready := [], timers := [], now := 0 }
    { procs := [], injector := [] } rfl⟩

/-- `Scheduler.joinPool` returns a pool only once it is quiescent. -/
theorem joinPool_some_quiescent :
    ∀ (fuel : Nat) (p q : Pool), Scheduler.joinPool fuel p = some q → q.quiescent = true := by
  intro fuel
  induction fuel with
  | zero =>
    intro p q h
    by_cases hq : p.quiescent = true
    · simp only [Scheduler.joinPool, hq, if_true] at h
      cases h
      exact hq
    · simp [Scheduler.joinPool, hq] at h
  | succ n ih =>
    intro p q h
    by_cases hq : p.quiescent = true
    · simp only [Scheduler.joinPool, hq, if_true] at h
      cases h
      exact hq
    · simp [Scheduler.joinPool, hq] at h
      exact ih _ _ h

/-- C6: `run(threads)` creates `threads` Processors over the pending
injector queue and behaves exactly as `start` followed by `join`;
`start(threads)` performs the setup and returns it at once; `join` returns
the pool only when it has reached quiescence (no Processor has Ready or
Blocked work and the injector is empty). -/
theorem run_start_join_quiescent (fuel threads : Nat) (pending : List Nat) (p q : Pool)
    (h : Scheduler.joinPool fuel p = some q) :
    (Scheduler.start threads pending).procs.length = threads ∧
    (Scheduler.start threads pending).injector = pending ∧
    coio.run fuel threads pending = Scheduler.joinPool fuel (Scheduler.start threads pending) ∧
    q.quiescent = true :=
  ⟨by simp [Scheduler.start], rfl, rfl, joinPool_some_quiescent fuel p q h⟩

/-- Witness for C6: a one-thread pool with one injected coroutine is
driven to quiescence. -/
theorem run_start_join_quiescent_witness :
    Scheduler.joinPool 3 (Scheduler.start 1 [7]) =
      some { procs := [{ ready := [], blocked := [] }], injector := [] } ∧
    ((Scheduler.start 1 [7]).procs.length = 1 ∧
     (Scheduler.start 1 [7]).injector = [7] ∧
     coio.run 3 1 [7] = Scheduler.joinPool 3 (Scheduler.start 1 [7]) ∧
     Pool.quiescent { procs := [{ ready := [], blocked := [] }], injector := [] } = true) :=
  ⟨by decide,
   run_start_join_quiescent 3 1 [7] (Scheduler.start 1 [7])
     { procs := [{ ready := [], blocked := [] }], injector := [] } (by decide)⟩

theorem updCo_self (f : Nat → Option CoState) (c : Nat) (v : Option CoState) :
    updCo f c v c = v := by
  simp [updCo]

theorem updCo_ne (f : Nat → Option CoState) (c x : Nat) (v : Option CoState) (h : x ≠ c) :
    updCo f c v x = f x := by
  simp [updCo, h]

theorem filter_key_cons_self (regs : List (Nat × WakeReason)) (c : Nat) (r : WakeReason) :
    ((c, r) :: regs).filter (fun e => e.1 == c) = (c, r) :: regs.filter (fun e => e.1 == c) := by
  simp [List.filter_cons]

theorem filter_key_cons_ne (regs : List (Nat × WakeReason)) (c c₀ : Nat) (r : WakeReason)
    (h : c₀ ≠ c) :
    ((c₀, r) :: regs).filter (fun e => e.1 == c) = regs.filter (fun e => e.1 == c) := by
  simp [List.filter_cons, h]

theorem filter_key_after_remove_self (regs : List (Nat × WakeReason)) (c : Nat) :
    (regs.filter (fun e => !(e.1 == c))).filter (fun e => e.1 == c) = [] := by
  induction regs with
  | nil => rfl
  | cons a l ih =>
    by_cases ha : a.1 = c <;> simp [List.filter_cons, ha, ih]

theorem filter_key_after_remove_ne (regs : List (Nat × WakeReason)) (c c₀ : Nat)
    (h : c ≠ c₀) :
    (regs.filter (fun e => !(e.1 == c₀))).filter (fun e => e.1 == c) =
      regs.filter (fun e => e.1 == c) := by
  induction regs with
  | nil => rfl
  | cons a l ih =>
    by_cases ha : a.1 = c₀
    · have hac : (a.1 == c) = false := by
        rw [ha]
        exact beq_eq_false_iff_ne.mpr (Ne.symm h)
      simp [List.filter_cons, ha, hac, Ne.symm h, ih]
    · by_cases hac : a.1 = c <;> simp [List.filter_cons, ha, hac, h, Ne.symm h, ih]

/-- The initial runtime state satisfies the wake-registry invariant. -/
theorem wakeInv_init : WakeInv RtState.init := by
  intro c
  constructor
  · intro r hr
    simp [RtState.init] at hr
  · intro _
    rfl

/-- A step that rebinds one coroutine between non-Blocked states and
leaves the registries alone preserves the wake-registry invariant. -/
theorem wakeInv_update_nonblocked (m : RtState) (ih : WakeInv m) (c₀ : Nat)
    (v : Option CoState) (hold : ∀ r, m.co c₀ ≠ some (.blocked r))
    (hnew : ∀ r, v ≠ some (.blocked r)) :
    WakeInv { co := updCo m.co c₀ v, regs := m.regs } := by
  intro c
  by_cases hc : c = c₀
  · subst hc
    constructor
    · intro r hr
      exact absurd (by simpa [updCo] using hr) (hnew r)
    · intro _
      exact (ih c).2 hold
  · constructor
    · intro r hr
      exact (ih c).1 r (by simpa [updCo, hc] using hr)
    · intro hnb
      exact (ih c).2 (fun r hr => hnb r (by simpa [updCo, hc] using hr))

/-- Every `RtStep` preserves the wake-registry invariant. -/
theorem wakeInv_step (m mNext : RtState) (h : RtStep m mNext) (ih : WakeInv m) :
    WakeInv mNext := by
  cases h with
  | spawnCo c₀ h₀ =>
    exact wakeInv_update_nonblocked m ih c₀ (some .ready)
      (fun r hr => by simp [h₀] at hr) (fun r => by simp)
  | resume c₀ h₀ =>
    exact wakeInv_update_nonblocked m ih c₀ (some .running)
      (fun r hr => by simp [h₀] at hr) (fun r => by simp)
  | yieldBack c₀ h₀ =>
    exact wakeInv_update_nonblocked m ih c₀ (some .ready)
      (fun r hr => by simp [h₀] at hr) (fun r => by simp)
  | finish c₀ h₀ =>
    exact wakeInv_update_nonblocked m ih c₀ (some .finished)
      (fun r hr => by simp [h₀] at hr) (fun r => by simp)
  | block c₀ r₀ h₀ =>
    intro c
    by_cases hc : c = c₀
    · subst hc
      have hreg : RtState.regsOf m c = [] :=
        (ih c).2 (fun r hr => by simp [h₀] at hr)
      constructor
      · intro r hr
        have hinj : some (CoState.blocked r₀) = some (CoState.blocked r) :=
          (updCo_self m.co c (some (CoState.blocked r₀))).symm.trans hr
        injection hinj with h2
        injection h2 with h3
        rw [← h3]
        show ((c, r₀) :: m.regs).filter (fun e => e.1 == c) = [(c, r₀)]
        rw [filter_key_cons_self]
        have hreg' : m.regs.filter (fun e => e.1 == c) = [] := hreg
        rw [hreg']
      · intro hnb
        exact absurd (show updCo m.co c (some (.blocked r₀)) c = some (.blocked r₀) by
          simp [updCo]) (hnb r₀)
    · constructor
      · intro r hr
        have hr' : m.co c = some (.blocked r) := by simpa [updCo, hc] using hr
        have hbase := (ih c).1 r hr'
        show ((c₀, r₀) :: m.regs).filter (fun e => e.1 == c) = [(c, r)]
        rw [filter_key_cons_ne m.regs c c₀ r₀ (fun hcc => hc hcc.symm)]
        exact hbase
      · intro hnb
        have hbase := (ih c).2 (fun r hr => hnb r (by simpa [updCo, hc] using hr))
        show ((c₀, r₀) :: m.regs).filter (fun e => e.1 == c) = []
        rw [filter_key_cons_ne m.regs c c₀ r₀ (fun hcc => hc hcc.symm)]
        exact hbase
  | fire c₀ r₀ h₀ =>
    intro c
    by_cases hc : c = c₀
    · subst hc
      constructor
      · intro r hr
        simp [RtState.fireResult, updCo] at hr
      · intro _
        show (m.regs.filter (fun e => !(e.1 == c))).filter (fun e => e.1 == c) = []
        exact filter_key_after_remove_self m.regs c
    · constructor
      · intro r hr
        have hr' : m.co c = some (.blocked r) := by
          simpa [RtState.fireResult, updCo, hc] using hr
        have hbase := (ih c).1 r hr'
        show (m.regs.filter (fun e => !(e.1 == c₀))).filter (fun e => e.1 == c) = [(c, r)]
        rw [filter_key_after_remove_ne m.regs c c₀ hc]
        exact hbase
      · intro hnb
        have hbase := (ih c).2 (fun r hr =>
          hnb r (by simpa [RtState.fireResult, updCo, hc] using hr))
        show (m.regs.filter (fun e => !(e.1 == c₀))).filter (fun e => e.1 == c) = []
        rw [filter_key_after_remove_ne m.regs c c₀ hc]
        exact hbase

/-- The wake-registry invariant holds in every reachable runtime state. -/
theorem wakeInv_reachable (m : RtState) (h : RtReachable m) : WakeInv m := by
  induction h with
  | refl => exact wakeInv_init
  | tail _ hstep ih => exact wakeInv_step _ _ hstep ih

/-- C5: in every reachable runtime state, each Blocked coroutine is
registered in the wake registries under exactly one wake reason (its
own), non-Blocked coroutines carry no registration, and the firing of a
Blocked coroutine's event is a legal step that leaves it Ready with no
remaining registration — so it can neither be woken a second time for the
same blocking episode (fire requires a Blocked coroutine) nor stay
Blocked after its event fires. -/
theorem blocked_single_wake_registration (m : RtState) (hm : RtReachable m) :
    WakeInv m ∧
    ∀ c r, m.co c = some (.blocked r) →
      RtStep m (RtState.fireResult m c) ∧
      (RtState.fireResult m c).co c = some CoState.ready ∧
      (RtState.fireResult m c).regsOf c = [] := by
  refine ⟨wakeInv_reachable m hm, fun c r h => ⟨RtStep.fire m c r h, ?_, ?_⟩⟩
  · simp [RtState.fireResult, updCo]
  · show (m.regs.filter (fun e => !(e.1 == c))).filter (fun e => e.1 == c) = []
    exact filter_key_after_remove_self m.regs c

/-- Concrete reachable state for the C5 witness: one coroutine spawned,
resumed and then blocked on a timer. -/
def wS1 : RtState :=
  { co := updCo RtState.init.co 0 (some .ready), regs := [] }

/-- Second witness state: the coroutine is running. -/
def wS2 : RtState :=
  { co := updCo wS1.co 0 (some .running), regs := [] }

/-- Third witness state: the coroutine is blocked on `Timer(5)` and
registered once in the wake registries. -/
def wS3 : RtState :=
  { co := updCo wS2.co 0 (some (.blocked (.timer 5))), regs := [(0, .timer 5)] }

/-- Witness for C5: the invariant holds at a concrete reachable state
with a Blocked, once-registered coroutine. -/
theorem blocked_single_wake_registration_witness :
    RtReachable wS3 ∧ WakeInv wS3 := by
  have h1 : RtStep RtState.init wS1 := RtStep.spawnCo RtState.init 0 rfl
  have h2 : RtStep wS1 wS2 := RtStep.resume wS1 0 rfl
  have h3 : RtStep wS2 wS3 := RtStep.block wS2 0 (.timer 5) rfl
  have hr : RtReachable wS3 :=
    Relation.ReflTransGen.tail
      (Relation.ReflTransGen.tail (Relation.ReflTransGen.single h1) h2) h3
  exact ⟨hr, (blocked_single_wake_registration wS3 hr).1⟩

/-- C7: `sleep_ms(d)` resumes no earlier than `d` milliseconds after the
call — in every reachable timer state, every recorded resumption happened
at a time at least `callTime + delay`; this holds for all delays,
including 0, and the machine places no upper bound on how late the timer
fires. -/
theorem sleep_ms_resumes_no_earlier (m : TimerState) (hm : TimerReachable m) :
    ∀ ev ∈ m.resumed, ev.callTime + ev.delay ≤ ev.wakeTime := by
  induction hm with
  | refl =>
    intro ev hev
    simp [TimerState.init] at hev
  | tail _ hstep ih =>
    cases hstep with
    | tick =>
      exact ih
    | sleepCall c ms =>
      exact ih
    | fire e hmem hle =>
      intro ev hev
      rcases List.mem_cons.mp hev with hev | hev
      · subst hev
        simpa using hle
      · exact ih ev hev

/-- Witness states for C7: a coroutine calls `sleep_ms(2)` at time 0. -/
def tW1 : TimerState :=
  { now := 0, sleeping := [{ co := 1, callTime := 0, delay := 2 }], resumed := [] }

/-- The clock has advanced to 1. -/
def tW2 : TimerState :=
  { tW1 with now := 1 }

/-- The clock has advanced to 2: the deadline has elapsed. -/
def tW3 : TimerState :=
  { tW2 with now := 2 }

/-- The timer fired at time 2, resuming the sleeper. -/
def tW4 : TimerState :=
  { now := 2, sleeping := [],
    resumed := [{ co := 1, callTime := 0, delay := 2, wakeTime := 2 }] }

/-- Witness for C7: on a concrete trace the coroutine that called
`sleep_ms(2)` at time 0 is resumed at time 2, no earlier than the
requested delay. -/
theorem sleep_ms_resumes_no_earlier_witness :
    TimerReachable tW4 ∧
    ({ co := 1, callTime := 0, delay := 2, wakeTime := 2 } : WakeEvent).callTime +
      ({ co := 1, callTime := 0, delay := 2, wakeTime := 2 } : WakeEvent).delay ≤
      ({ co := 1, callTime := 0, delay := 2, wakeTime := 2 } : WakeEvent).wakeTime := by
  have h1 : TimerStep TimerState.init tW1 := TimerStep.sleepCall TimerState.init 1 2
  have h2 : TimerStep tW1 tW2 := TimerStep.tick tW1
  have h3 : TimerStep tW2 tW3 := TimerStep.tick tW2
  have h4 : TimerStep tW3 tW4 :=
    TimerStep.fire tW3 { co := 1, callTime := 0, delay := 2 } (by decide) (by decide)
  have hr : TimerReachable tW4 :=
    Relation.ReflTransGen.tail
      (Relation.ReflTransGen.tail
        (Relation.ReflTransGen.tail (Relation.ReflTransGen.single h1) h2) h3) h4
  exact ⟨hr, sleep_ms_resumes_no_earlier tW4 hr
    { co := 1, callTime := 0, delay := 2, wakeTime := 2 } (by decide)⟩

/-- Replacing the deque at index `i` exchanges its contents inside the
flattened multiset: old entry out, new entry in. -/
theorem flatten_ms_set (L : List (List Nat)) :
    ∀ (i : Nat) (d l : List Nat), L.get? i = some d →
      ((((L.set i l).flatten : List Nat) : Multiset Nat) + ↑d) =
        ((L.flatten : List Nat) : Multiset Nat) + ↑l := by
  induction L with
  | nil =>
    intro i d l h
    simp at h
  | cons a L ih =>
    intro i d l h
    cases i with
    | zero =>
      have had : a = d := by simpa using h
      subst had
      show ((((l :: L).flatten : List Nat) : Multiset Nat) + ↑a) =
        (((a :: L).flatten : List Nat) : Multiset Nat) + ↑l
      simp only [List.flatten_cons]
      rw [← Multiset.coe_add, ← Multiset.coe_add]
      abel
    | succ n =>
      have h' : L.get? n = some d := by simpa using h
      have hrec := ih n d l h'
      show ((((a :: L.set n l).flatten : List Nat) : Multiset Nat) + ↑d) =
        (((a :: L).flatten : List Nat) : Multiset Nat) + ↑l
      simp only [List.flatten_cons]
      rw [← Multiset.coe_add, ← Multiset.coe_add]
      rw [add_assoc, add_assoc, hrec]

/-- Every balancer operation conserves the multiset of coroutines: a
steal moves exactly one coroutine and never duplicates or drops one. -/
theorem bstep_contents (b bNext : Balancer) (h : BStep b bNext) :
    bNext.contents = b.contents := by
  cases h with
  | steal t v c rest dt hv ht hne =>
    have e1 := flatten_ms_set b.deques v (c :: rest) rest hv
    have e2 := flatten_ms_set (b.deques.set v rest) t dt (dt ++ [c]) ht
    have hcr : ((c :: rest : List Nat) : Multiset Nat) = ↑[c] + ↑rest :=
      (Multiset.coe_add [c] rest).symm
    rw [hcr, ← add_assoc] at e1
    have e1' : ((((b.deques.set v rest).flatten : List Nat) : Multiset Nat) + ↑[c]) =
        ((b.deques.flatten : List Nat) : Multiset Nat) := add_right_cancel e1
    have hdt : ((dt ++ [c] : List Nat) : Multiset Nat) = ↑dt + ↑[c] :=
      (Multiset.coe_add dt [c]).symm
    rw [hdt] at e2
    have hsw : ((((b.deques.set v rest).flatten : List Nat) : Multiset Nat) + (↑dt + ↑[c])) =
        ((((b.deques.set v rest).flatten : List Nat) : Multiset Nat) + ↑[c]) + ↑dt := by
      abel
    rw [hsw] at e2
    have e2' : ((((b.deques.set v rest).set t (dt ++ [c])).flatten : List Nat) : Multiset Nat) =
        (((b.deques.set v rest).flatten : List Nat) : Multiset Nat) + ↑[c] :=
      add_right_cancel e2
    simp only [Balancer.contents]
    rw [e2', e1']
  | stealEmpty v hv =>
    rfl
  | popLocal p c xs hp =>
    have e := flatten_ms_set b.deques p (xs ++ [c]) xs hp
    have hxc : ((xs ++ [c] : List Nat) : Multiset Nat) = ↑xs + ↑[c] :=
      (Multiset.coe_add xs [c]).symm
    rw [hxc] at e
    have hsw : ((((b.deques.set p xs).flatten : List Nat) : Multiset Nat) + (↑xs + ↑[c])) =
        ((((b.deques.set p xs).flatten : List Nat) : Multiset Nat) + ↑[c]) + ↑xs := by
      abel
    rw [hsw] at e
    have e' : ((((b.deques.set p xs).flatten : List Nat) : Multiset Nat) + ↑[c]) =
        ((b.deques.flatten : List Nat) : Multiset Nat) := add_right_cancel e
    have hc : ((c :: b.running : List Nat) : Multiset Nat) = ↑[c] + ↑b.running :=
      (Multiset.coe_add [c] b.running).symm
    simp only [Balancer.contents]
    rw [← e', hc]
    abel
  | takeInjector p c rest dp hinj hp =>
    have e := flatten_ms_set b.deques p dp (dp ++ [c]) hp
    have hdc : ((dp ++ [c] : List Nat) : Multiset Nat) = ↑dp + ↑[c] :=
      (Multiset.coe_add dp [c]).symm
    rw [hdc] at e
    have hsw : (((b.deques.flatten : List Nat) : Multiset Nat) + (↑dp + ↑[c])) =
        (((b.deques.flatten : List Nat) : Multiset Nat) + ↑[c]) + ↑dp := by
      abel
    rw [hsw] at e
    have e' : ((((b.deques.set p (dp ++ [c])).flatten : List Nat) : Multiset Nat)) =
        ((b.deques.flatten : List Nat) : Multiset Nat) + ↑[c] := add_right_cancel e
    have hcr : ((c :: rest : List Nat) : Multiset Nat) = ↑[c] + ↑rest :=
      (Multiset.coe_add [c] rest).symm
    simp only [Balancer.contents]
    rw [e', hinj, hcr]
    abel
  | finishRun c hc =>
    have hperm : (↑b.running : Multiset Nat) = ↑[c] + ↑(b.running.erase c) := by
      have := Multiset.coe_eq_coe.mpr (List.perm_cons_erase hc)
      simpa [← Multiset.cons_coe] using this
    have hce : ((c :: b.executed : List Nat) : Multiset Nat) = ↑[c] + ↑b.executed :=
      (Multiset.coe_add [c] b.executed).symm
    simp only [Balancer.contents]
    rw [hperm, hce]
    abel

/-- C8: under any interleaving of balancer operations (steals by any
thieves, local pops, injector claims, completions), the multiset of
coroutines is conserved — per-coroutine counts never change, so no
coroutine is duplicated to two stealers or lost — and once the deques,
the injector and the running slots are drained, the executed multiset
equals the starting contents: every spawned coroutine, even when all were
placed in a single Processor's deque, is executed exactly once. -/
theorem work_stealing_exactly_once (bStart b : Balancer) (h : BReachable bStart b) :
    b.contents = bStart.contents ∧
    (∀ c, b.contents.count c = bStart.contents.count c) ∧
    (b.deques.flatten = [] → b.injector = [] → b.running = [] →
      (↑b.executed : Multiset Nat) = bStart.contents) := by
  have hc : b.contents = bStart.contents := by
    induction h with
    | refl => rfl
    | tail _ hstep ih => exact (bstep_contents _ _ hstep).trans ih
  refine ⟨hc, fun c => by rw [hc], fun hdq hinj hrun => ?_⟩
  have hb : b.contents = (↑b.executed : Multiset Nat) := by
    simp [Balancer.contents, hdq, hinj, hrun]
  rw [← hb, hc]

/-- Witness start state for C8: an artificially skewed distribution —
all three coroutines on one Processor (two in its deque, one injected). -/
def wB0 : Balancer :=
  { deques := [[1, 2], []], injector := [3], running := [], executed := [] }

/-- Processor 0 claims the injected coroutine. -/
def wB1 : Balancer :=
  { deques := [[1, 2, 3], []], injector := [], running := [], executed := [] }

/-- Processor 1 steals coroutine 1 from the front of deque 0. -/
def wB2 : Balancer :=
  { deques := [[2, 3], [1]], injector := [], running := [], executed := [] }

/-- Processor 0 pops coroutine 3 from the back of its deque and runs it. -/
def wB3 : Balancer :=
  { deques := [[2], [1]], injector := [], running := [3], executed := [] }

/-- Coroutine 3 finishes. -/
def wB4 : Balancer :=
  { deques := [[2], [1]], injector := [], running := [], executed := [3] }

/-- Processor 0 pops coroutine 2 and runs it. -/
def wB5 : Balancer :=
  { deques := [[], [1]], injector := [], running := [2], executed := [3] }

/-- Coroutine 2 finishes. -/
def wB6 : Balancer :=
  { deques := [[], [1]], injector := [], running := [], executed := [2, 3] }

/-- Processor 1 pops the stolen coroutine 1 and runs it. -/
def wB7 : Balancer :=
  { deques := [[], []], injector := [], running := [1], executed := [2, 3] }

/-- Coroutine 1 finishes: everything drained, all three executed. -/
def wB8 : Balancer :=
  { deques := [[], []], injector := [], running := [], executed := [1, 2, 3] }

/-- Witness for C8: on a concrete interleaving with a steal, all three
coroutines of the skewed start state end up executed exactly once. -/
theorem work_stealing_exactly_once_witness :
    BReachable wB0 wB8 ∧ (↑wB8.executed : Multiset Nat) = wB0.contents := by
  have h1 : BStep wB0 wB1 := BStep.takeInjector wB0 0 3 [] [1, 2] rfl rfl
  have h2 : BStep wB1 wB2 := BStep.steal wB1 1 0 1 [2, 3] [] rfl rfl (by decide)
  have h3 : BStep wB2 wB3 := BStep.popLocal wB2 0 3 [2] rfl
  have h4 : BStep wB3 wB4 := BStep.finishRun wB3 3 (by decide)
  have h5 : BStep wB4 wB5 := BStep.popLocal wB4 0 2 [] rfl
  have h6 : BStep wB5 wB6 := BStep.finishRun wB5 2 (by decide)
  have h7 : BStep wB6 wB7 := BStep.popLocal wB6 1 1 [] rfl
  have h8 : BStep wB7 wB8 := BStep.finishRun wB7 1 (by decide)
  have hr : BReachable wB0 wB8 :=
    Relation.ReflTransGen.tail
      (Relation.ReflTransGen.tail
        (Relation.ReflTransGen.tail
          (Relation.ReflTransGen.tail
            (Relation.ReflTransGen.tail
              (Relation.ReflTransGen.tail
                (Relation.ReflTransGen.tail (Relation.ReflTransGen.single h1) h2) h3) h4) h5)
            h6) h7) h8
  exact ⟨hr, (work_stealing_exactly_once wB0 wB8 hr).2.2 rfl rfl rfl⟩

end Coio
